import Mathlib

/-!
Shallow embedding of the deck-simulation engine and bounded scalar optimizer
of `src/optimal_retention.rs` (fsrs-optimizer-burn), together with theorems
settling the claims C1-C10 about it.

Modelling conventions:
* All `f64` arithmetic is embedded as exact rational (`ℚ`) arithmetic.
  The transcendental `f64` intrinsics `exp` and `powf`, whose bit-level
  behaviour is not representable in a shallow embedding, are abstracted as
  fields of a `FloatOps` record; every theorem quantifies over them, so it
  holds in particular for the functions the Rust code uses.
* The constants `FACTOR`, `DECAY`, `S_MIN` and the function `next_interval`
  are imported by `optimal_retention.rs` from `inference.rs`, whose portion
  defining them is not part of the sources; they are likewise carried as
  abstract fields of `FloatOps` (modelled from the spec, see the field docs).
* Randomness: the Rust code draws from a single `StdRng` seeded with
  `seed.unwrap_or(42)`; the draws are (a) one uniform number per due card,
  (b) one review-rating index per recalled card, (c) one first-rating index
  per admitted learn card.  The generator is abstracted as three draw streams
  indexed by consumption order (`Rng`); any concrete seeded generator is an
  instance of this model, and the simulator consumes the streams in exactly
  the order the code consumes its generator.
* Fallible operations (index-out-of-bounds panics, `unwrap` on
  `WeightedIndex::new`) are modelled by `Option`, `none` standing for a panic.
-/

namespace FsrsSim

/-- Error type of the crate (`FSRSError`), restricted to the variants used by
`optimal_retention.rs`: `InvalidParameters`, `Interrupted`, `OptimalNotFound`. -/
inductive SimErr where
  | invalidParameters : SimErr
  | interrupted : SimErr
  | optimalNotFound : SimErr
deriving DecidableEq, Repr

deriving instance DecidableEq for Except

/-- Abstraction of the `f64` operations and of the constants/functions that
`optimal_retention.rs` imports from `inference.rs` (not among the sources).

* `exp`, `powf` model the `f64` intrinsics `f64::exp` and `f64::powf`.
* `factor`, `decay` model `FACTOR` and `DECAY`.  Modelled from the spec:
  "fixed constants chosen so that `p(stability, elapsed_days = stability) =
  0.9`"; no claim depends on their values, so they are uninterpreted.
* `sMin` models `S_MIN`, the stability floor.  Modelled from the spec: the
  lower clamp bound of the stability range; its numeric value is not given.
* `nextInterval` models `next_interval` (including its `f32` round-trip).
  Modelled from the spec: it "inverts the forgetting curve to find the
  elapsed-day value at which recall probability equals `desired_retention`";
  no claim depends on its values, so it is uninterpreted. -/
structure FloatOps where
  exp : ℚ → ℚ
  powf : ℚ → ℚ → ℚ
  factor : ℚ
  decay : ℚ
  sMin : ℚ
  nextInterval : ℚ → ℚ → ℚ

/-- `SimulatorConfig` (all fields as in the Rust struct; the two probability
arrays are only consumed by `WeightedIndex::new`, whose sampled indices are
abstracted into `Rng`, but their validity still gates the `unwrap`s). -/
structure SimulatorConfig where
  deckSize : ℕ
  learnSpan : ℕ
  maxCostPerday : ℚ
  maxIvl : ℚ
  recallCosts : List ℚ
  forgetCost : ℚ
  learnCost : ℚ
  firstRatingProb : List ℚ
  reviewRatingProb : List ℚ
  lossAversion : ℚ
  learnLimit : ℕ
  reviewLimit : ℕ

/-- `pub struct Card` of `optimal_retention.rs`. -/
structure Card where
  difficulty : ℚ
  stability : ℚ
  lastDate : ℚ
  due : ℚ
deriving DecidableEq, Repr

/-- One column-slice of the `card_table` for a single card index: the
`Difficulty`, `Stability`, `LastDate`, `Due` and `Interval` columns (the
remaining `Column` variants are marked `#[allow(unused)]` in the source and
are materialized as the per-day scratch arrays below). -/
structure CardRow where
  difficulty : ℚ
  stability : ℚ
  lastDate : ℚ
  due : ℚ
  interval : ℚ
deriving DecidableEq, Repr

/-- `f64::clamp(lo, hi)` for the in-range case (the Rust function asserts
`lo <= hi` and panics otherwise; every use below is either syntactically
in-range or guarded by a hypothesis). -/
def clampQ (x lo hi : ℚ) : ℚ := max lo (min x hi)

/-- `stability_after_success` (lines 84-93): `s * ((exp w8 * (11 - d) *
s^(-w9) * (exp ((1-r)*w10) - 1) * hard_penalty).mul_add(easy_bonus, 1))`. -/
def stability_after_success (ops : FloatOps) (w : ℕ → ℚ) (s r d : ℚ)
    (response : ℕ) : ℚ :=
  let hard_penalty : ℚ := if response = 2 then w 15 else 1
  let easy_bonus : ℚ := if response = 4 then w 16 else 1
  s * ((ops.exp (w 8) * (11 - d) * ops.powf s (-(w 9)) *
      (ops.exp ((1 - r) * w 10) - 1) * hard_penalty) * easy_bonus + 1)

/-- `stability_after_failure` (lines 95-98): `(w11 * d^(-w12) *
((s+1)^w13 - 1) * exp ((1-r)*w14)).clamp(S_MIN, s)`. -/
def stability_after_failure (ops : FloatOps) (w : ℕ → ℚ) (s r d : ℚ) : ℚ :=
  clampQ (w 11 * ops.powf d (-(w 12)) * (ops.powf (s + 1) (w 13) - 1) *
    ops.exp ((1 - r) * w 14)) ops.sMin s

/-- `power_forgetting_curve` (lines 176-178, local to `simulate`):
`(t / s).mul_add(FACTOR, 1.0).powf(DECAY)`. -/
def power_forgetting_curve (ops : FloatOps) (t s : ℚ) : ℚ :=
  ops.powf (t / s * ops.factor + 1) ops.decay

/-- The three draw streams of the seeded `StdRng`, indexed by consumption
order: `unif k` is the `k`-th uniform draw, `rev k` the `k`-th index sampled
from the review-rating `WeightedIndex`, `first k` the `k`-th index sampled
from the first-rating `WeightedIndex`. -/
structure Rng where
  unif : ℕ → ℚ
  rev : ℕ → Fin 3
  first : ℕ → Fin 4

/-- `review_rating_choices = [2, 3, 4]` (line 153). -/
def reviewRatingChoices : Fin 3 → ℕ
  | 0 => 2
  | 1 => 3
  | 2 => 4

/-- `first_rating_choices = [1, 2, 3, 4]` (line 150). -/
def firstRatingChoices : Fin 4 → ℕ
  | 0 => 1
  | 1 => 2
  | 2 => 3
  | 3 => 4

/-- Number of indices `j < i` with `p j` (running counters of the
`map_collect` closures and of the positional rng-draw assignment). -/
def cnt (p : ℕ → Bool) : ℕ → ℕ
  | 0 => 0
  | i + 1 => cnt p i + (if p i then 1 else 0)

/-- `cum_sum` (lines 236-240 / 264-267): `cum_sum[0] = cost[0]`,
`cum_sum[i] = cum_sum[i-1] + cost[i]`. -/
def cumSum (c : ℕ → ℚ) : ℕ → ℚ
  | 0 => c 0
  | i + 1 => cumSum c i + c (i + 1)

/-- All inputs of one iteration of the main simulation loop
(`for today in 0..learn_span`, lines 159-399): the immutable run inputs, the
current `card_table`, the current day, and the number of draws already
consumed from each rng stream on previous days. -/
structure DayIn where
  ops : FloatOps
  cfg : SimulatorConfig
  w : ℕ → ℚ
  dr : ℚ
  rng : Rng
  uBase : ℕ
  rBase : ℕ
  fBase : ℕ
  cards : ℕ → CardRow
  today : ℕ

namespace DayIn

variable (ctx : DayIn)

/-- `has_learned = old_stability.mapv(|x| x > 1e-9)` (line 161). -/
def hasLearned (i : ℕ) : Bool := decide ((1 : ℚ) / 10 ^ 9 < (ctx.cards i).stability)

/-- `delta_t` (lines 165-172): `today - last_date` where `has_learned`, else
the `Array1::zeros` default `0`. -/
def deltaT (i : ℕ) : ℚ :=
  if ctx.hasLearned i then (ctx.today : ℚ) - (ctx.cards i).lastDate else 0

/-- `retrievability` (lines 174-185): the forgetting curve where
`has_learned`, else the zeros default. -/
def retrievability (i : ℕ) : ℚ :=
  if ctx.hasLearned i then
    power_forgetting_curve ctx.ops (ctx.deltaT i) (ctx.cards i).stability
  else 0

/-- `need_review = old_due.mapv(|x| x <= today as f64)` (line 192). -/
def needReview (i : ℕ) : Bool := decide ((ctx.cards i).due ≤ (ctx.today : ℚ))

/-- `rand_slice` (lines 197-209): the fresh uniform draws are assigned to the
`need_review` positions in index order; other positions keep the zeros
default. -/
def randVal (i : ℕ) : ℚ :=
  if ctx.needReview i then ctx.rng.unif (ctx.uBase + cnt ctx.needReview i) else 0

/-- `forget = rand_slice > retrievability`, elementwise (lines 212-214). -/
def forgetFlag (i : ℕ) : Bool := decide (ctx.retrievability i < ctx.randVal i)

/-- The mask `need_review & !forget` (line 218). -/
def recalled (i : ℕ) : Bool := ctx.needReview i && !ctx.forgetFlag i

/-- `ratings` after the first sampling pass (lines 217-222): a review rating
drawn in index order for each `need_review & !forget` position, zeros default
elsewhere. -/
def ratings1 (i : ℕ) : ℕ :=
  if ctx.recalled i then
    reviewRatingChoices (ctx.rng.rev (ctx.rBase + cnt ctx.recalled i))
  else 0

/-- `cost` after the review pass (lines 225-233): for `need_review` cards,
`forget_cost * loss_aversion` when forgotten else `recall_costs[rating - 2]`;
zeros default elsewhere. -/
def cost1 (i : ℕ) : ℚ :=
  if ctx.needReview i then
    if ctx.forgetFlag i then ctx.cfg.forgetCost * ctx.cfg.lossAversion
    else ((ctx.cfg.recallCosts.get? (ctx.ratings1 i - 2)).getD 0)
  else 0

/-- `true_review` (lines 242-254): `need_review && cum_sum <= max_cost_perday
&& review_count <= review_limit`, where `review_count` is incremented for
every walked `need_review` card (so at position `i` it equals
`cnt need_review (i+1)`). -/
def trueReview (i : ℕ) : Bool :=
  ctx.needReview i && decide (cumSum ctx.cost1 i ≤ ctx.cfg.maxCostPerday) &&
    decide (cnt ctx.needReview (i + 1) ≤ ctx.cfg.reviewLimit)

/-- `need_learn = old_due.mapv(|x| x == learn_span as f64)` (line 256). -/
def needLearn (i : ℕ) : Bool := decide ((ctx.cards i).due = (ctx.cfg.learnSpan : ℚ))

/-- `cost` after the learn overwrite (lines 258-262): `learn_cost` at
`need_learn` positions, previous review cost elsewhere. -/
def cost2 (i : ℕ) : ℚ :=
  if ctx.needLearn i then ctx.cfg.learnCost else ctx.cost1 i

/-- `true_learn` (lines 272-281): `need_learn && cum_sum <= max_cost_perday
&& learn_count <= learn_limit` over the overwritten cost array. -/
def trueLearn (i : ℕ) : Bool :=
  ctx.needLearn i && decide (cumSum ctx.cost2 i ≤ ctx.cfg.maxCostPerday) &&
    decide (cnt ctx.needLearn (i + 1) ≤ ctx.cfg.learnLimit)

/-- `ratings` after the second sampling pass (lines 284-288): a first rating
drawn in index order for each `true_learn` position. -/
def ratings2 (i : ℕ) : ℕ :=
  if ctx.trueLearn i then
    firstRatingChoices (ctx.rng.first (ctx.fBase + cnt ctx.trueLearn i))
  else ctx.ratings1 i

/-- `new_stability` (lines 290-317 and the `true_learn` overwrite 349-359):
failure update on `true_review & forget`, success update on
`true_review & !forget`, `w[rating - 1]` on `true_learn` (written last, so it
wins), old stability elsewhere. -/
def newStability (i : ℕ) : ℚ :=
  if ctx.trueLearn i then ctx.w (ctx.ratings2 i - 1)
  else if ctx.trueReview i && ctx.forgetFlag i then
    stability_after_failure ctx.ops ctx.w (ctx.cards i).stability
      (ctx.retrievability i) (ctx.cards i).difficulty
  else if ctx.trueReview i && !ctx.forgetFlag i then
    stability_after_success ctx.ops ctx.w (ctx.cards i).stability
      (ctx.retrievability i) (ctx.cards i).difficulty (ctx.ratings2 i)
  else (ctx.cards i).stability

/-- `new_difficulty` (lines 320-339 and the `true_learn` overwrite 349-359):
`(2*w6 + d).clamp(1,10)` on `true_review & forget`,
`(w6*(3 - rating) + d).clamp(1,10)` on `true_review & !forget`,
`(w4 - w5*(rating - 3)).clamp(1,10)` on `true_learn` (written last), old
difficulty elsewhere. -/
def newDifficulty (i : ℕ) : ℚ :=
  if ctx.trueLearn i then
    clampQ (ctx.w 5 * (-((ctx.ratings2 i : ℚ) - 3)) + ctx.w 4) 1 10
  else if ctx.trueReview i && ctx.forgetFlag i then
    clampQ (2 * ctx.w 6 + (ctx.cards i).difficulty) 1 10
  else if ctx.trueReview i && !ctx.forgetFlag i then
    clampQ (ctx.w 6 * (3 - (ctx.ratings2 i : ℚ)) + (ctx.cards i).difficulty) 1 10
  else (ctx.cards i).difficulty

/-- The mask `true_review || true_learn` gating the `last_date`, `interval`
and `due` writes and the day-cost sum. -/
def admitted (i : ℕ) : Bool := ctx.trueReview i || ctx.trueLearn i

/-- `new_last_date` (lines 342-347). -/
def newLastDate (i : ℕ) : ℚ :=
  if ctx.admitted i then (ctx.today : ℚ) else (ctx.cards i).lastDate

/-- `new_interval` (lines 360-367):
`next_interval(new_stability, desired_retention).clamp(1, max_ivl)` on
admitted cards. -/
def newInterval (i : ℕ) : ℚ :=
  if ctx.admitted i then
    clampQ (ctx.ops.nextInterval (ctx.newStability i) ctx.dr) 1 ctx.cfg.maxIvl
  else (ctx.cards i).interval

/-- `new_due` (lines 369-375): `today + new_interval` on admitted cards. -/
def newDue (i : ℕ) : ℚ :=
  if ctx.admitted i then (ctx.today : ℚ) + ctx.newInterval i else (ctx.cards i).due

/-- The `card_table` after the day's column assignments (lines 377-390). -/
def newCards (i : ℕ) : CardRow :=
  ⟨ctx.newDifficulty i, ctx.newStability i, ctx.newLastDate i, ctx.newDue i,
    ctx.newInterval i⟩

/-- `review_cnt_per_day[today]` (line 392). -/
def reviewCount : ℕ := cnt ctx.trueReview ctx.cfg.deckSize

/-- `learn_cnt_per_day[today]` (line 393). -/
def learnCount : ℕ := cnt ctx.trueLearn ctx.cfg.deckSize

/-- `memorized_cnt_per_day[today] = retrievability.sum()` (line 394). -/
def memorizedSum : ℚ :=
  ∑ i ∈ Finset.range ctx.cfg.deckSize, ctx.retrievability i

/-- `cost_per_day[today]` (lines 395-398): the final cost array summed over
`true_review || true_learn` positions. -/
def dayCost : ℚ :=
  ∑ i ∈ Finset.range ctx.cfg.deckSize, if ctx.admitted i then ctx.cost2 i else 0

/-- Uniform draws consumed by this day: one per `need_review` card. -/
def nextUBase : ℕ := ctx.uBase + cnt ctx.needReview ctx.cfg.deckSize

/-- Review-rating draws consumed by this day: one per recalled card. -/
def nextRBase : ℕ := ctx.rBase + cnt ctx.recalled ctx.cfg.deckSize

/-- First-rating draws consumed by this day: one per `true_learn` card. -/
def nextFBase : ℕ := ctx.fBase + cnt ctx.trueLearn ctx.cfg.deckSize

end DayIn

/-- One iteration of the main loop.  Returns the updated card table, the four
scalars recorded for the day, and the advanced rng stream positions; `none`
models the panic of `cum_sum[0] = cost[0]` (line 237) when the deck is empty
(`Array1` indexing is bounds-checked). -/
def dayStep (ctx : DayIn) :
    Option ((ℕ → CardRow) × ℚ × ℕ × ℕ × ℚ × (ℕ × ℕ × ℕ)) :=
  if ctx.cfg.deckSize = 0 then none
  else some (ctx.newCards, ctx.memorizedSum, ctx.reviewCount, ctx.learnCount,
    ctx.dayCost, (ctx.nextUBase, ctx.nextRBase, ctx.nextFBase))

/-- The unlearned slot of the fresh `card_table` (lines 128-133): all columns
`Array2::zeros` except `Due := learn_span` and `Difficulty`, `Stability`
`:= 1e-10`. -/
def freshRow (cfg : SimulatorConfig) : CardRow :=
  ⟨1 / 10 ^ 10, 1 / 10 ^ 10, 0, (cfg.learnSpan : ℚ), 0⟩

/-- A seeded existing card: the loop of lines 136-143 writes its four fields;
the `Interval` column keeps its zero. -/
def rowOfCard (c : Card) : CardRow :=
  ⟨c.difficulty, c.stability, c.lastDate, c.due, 0⟩

/-- The `card_table` after initialization and seeding (lines 128-143),
assuming the seeding loop stayed in bounds. -/
def initTable (cfg : SimulatorConfig) (existing : List Card) : ℕ → CardRow :=
  fun i =>
    match existing.get? i with
    | some c => rowOfCard c
    | none => freshRow cfg

/-- Success condition of `WeightedIndex::new(weights).unwrap()` (lines
151/154): every weight non-negative and a positive total. -/
def validWeights (ws : List ℚ) : Bool :=
  ws.all (fun x => decide (0 ≤ x)) && decide (0 < ws.sum)

/-- The main simulation loop, iterated over the remaining days.  Threads the
card table and the rng positions; conses the four per-day scalars. -/
def simulateLoop (ops : FloatOps) (cfg : SimulatorConfig) (w : ℕ → ℚ) (dr : ℚ)
    (rng : Rng) :
    (ℕ → CardRow) → ℕ × ℕ × ℕ → ℕ → ℕ →
      Option (List ℚ × List ℕ × List ℕ × List ℚ)
  | _, _, _, 0 => some ([], [], [], [])
  | cards, ctrs, today, r + 1 => do
    let (cards', mem, rc, lc, c, ctrs') ←
      dayStep ⟨ops, cfg, w, dr, rng, ctrs.1, ctrs.2.1, ctrs.2.2, cards, today⟩
    let (ms, rs, ls, cs) ← simulateLoop ops cfg w dr rng cards' ctrs' (today + 1) r
    some (mem :: ms, rc :: rs, lc :: ls, c :: cs)

/-- `simulate` (lines 107-407).  Returns the four sequences
`(memorized_cnt_per_day, review_cnt_per_day, learn_cnt_per_day,
cost_per_day)`; `none` models a panic:
* seeding an `existing_cards` longer than the deck indexes past the table
  (lines 136-143);
* `WeightedIndex::new(..).unwrap()` on invalid rating weights (lines 151/154);
* the empty-deck `cum_sum` indexing inside the day loop (line 237).
`existing = []` covers both `None` and `Some(vec![])`. -/
def simulate (ops : FloatOps) (cfg : SimulatorConfig) (w : ℕ → ℚ) (dr : ℚ)
    (rng : Rng) (existing : List Card) :
    Option (List ℚ × List ℕ × List ℕ × List ℚ) :=
  if cfg.deckSize < existing.length then none
  else if !(validWeights cfg.firstRatingProb && validWeights cfg.reviewRatingProb)
  then none
  else simulateLoop ops cfg w dr rng (initTable cfg existing) (0, 0, 0) 0
    cfg.learnSpan

/-- The card table held by `simulate` after `days` iterations of its loop
(the same guards and the same day transition as `simulate`; the Rust function
does not return the table, this definition only observes the loop state). -/
def simulateTableAfter (ops : FloatOps) (cfg : SimulatorConfig) (w : ℕ → ℚ)
    (dr : ℚ) (rng : Rng) (existing : List Card) (days : ℕ) :
    Option (ℕ → CardRow) :=
  if cfg.deckSize < existing.length then none
  else if !(validWeights cfg.firstRatingProb && validWeights cfg.reviewRatingProb)
  then none
  else go (initTable cfg existing) (0, 0, 0) 0 days
where
  go : (ℕ → CardRow) → ℕ × ℕ × ℕ → ℕ → ℕ → Option (ℕ → CardRow)
  | cards, _, _, 0 => some cards
  | cards, ctrs, today, r + 1 => do
    let (cards', _, _, _, _, ctrs') ←
      dayStep ⟨ops, cfg, w, dr, rng, ctrs.1, ctrs.2.1, ctrs.2.2, cards, today⟩
    go cards' ctrs' (today + 1) r

/-- `R_MIN` (line 46). -/
def R_MIN : ℚ := 75 / 100

/-- `R_MAX` (line 47). -/
def R_MAX : ℚ := 95 / 100

/-- The mutable state of the `brent` loop (lines 495-501). -/
structure BrentState where
  x : ℚ
  v : ℚ
  w : ℚ
  fx : ℚ
  fv : ℚ
  fw : ℚ
  a : ℚ
  b : ℚ
  deltax : ℚ
  rat : ℚ
deriving Repr

/-- The `while iter < maxiter` loop of `brent` (lines 503-578) with the
objective `f` abstract (in the source each evaluation is
`sample(config, parameters, u, SAMPLE_SIZE, progress)`, whose errors
propagate through `?`).  `fuel` is `maxiter - iter`; the returned `Bool` is
`iter < maxiter` at exit, i.e. whether the loop broke at the convergence
test. -/
def brentLoop (f : ℚ → Except SimErr ℚ) : ℕ → BrentState →
    Except SimErr (ℚ × Bool)
  | 0, st => .ok (st.x, false)
  | fuel + 1, st =>
    let mintol : ℚ := 1 / 10 ^ 10
    let cg : ℚ := 3819660 / 10 ^ 7
    let tol : ℚ := 1 / 100
    let tol1 := tol * |st.x| + mintol
    let tol2 := 2 * tol1
    let xmid := (st.a + st.b) / 2
    if |st.x - xmid| < tol2 - (st.b - st.a) / 2 then .ok (st.x, true)
    else
      -- (new deltax, new rat) of this iteration
      let dxrat : ℚ × ℚ :=
        if |st.deltax| ≤ tol1 then
          -- golden section step
          let dx := (if st.x ≥ xmid then st.a else st.b) - st.x
          (dx, cg * dx)
        else
          -- attempt a parabolic step
          let tmp1 := (st.x - st.w) * (st.fx - st.fv)
          let tmp2a := (st.x - st.v) * (st.fx - st.fw)
          let p0 := (st.x - st.v) * tmp2a - (st.x - st.w) * tmp1
          let tmp2b := 2 * (tmp2a - tmp1)
          let p1 := if 0 < tmp2b then -p0 else p0
          let tmp2 := |tmp2b|
          let deltax_tmp := st.deltax
          -- `deltax = rat` before the fit check
          if p1 > tmp2 * (st.a - st.x) ∧ p1 < tmp2 * (st.b - st.x) ∧
              |p1| < |1 / 2 * tmp2 * deltax_tmp| then
            let rat0 := p1 / tmp2
            let u0 := st.x + rat0
            if u0 - st.a < tol2 ∨ st.b - u0 < tol2 then
              (st.rat, if xmid - st.x ≥ 0 then tol1 else -tol1)
            else (st.rat, rat0)
          else
            let dx := (if st.x ≥ xmid then st.a else st.b) - st.x
            (dx, cg * dx)
      let dx := dxrat.1
      let ratN := dxrat.2
      -- update by at least tol1
      let u := st.x + (if |ratN| < tol1 then (if ratN ≥ 0 then tol1 else -tol1)
        else ratN)
      match f u with
      | .error e => .error e
      | .ok fu =>
        let st' : BrentState :=
          if fu > st.fx then
            let st1 : BrentState :=
              { st with a := if u < st.x then u else st.a,
                        b := if u < st.x then st.b else u,
                        deltax := dx, rat := ratN }
            if fu ≤ st.fw ∨ st.w = st.x then
              { st1 with v := st.w, w := u, fv := st.fw, fw := fu }
            else if fu ≤ st.fv ∨ st.v = st.x ∨ st.v = st.w then
              { st1 with v := u, fv := fu }
            else st1
          else
            { x := u, v := st.w, w := st.x,
              fx := fu, fv := st.fw, fw := st.fx,
              a := if u ≥ st.x then st.x else st.a,
              b := if u ≥ st.x then st.b else st.x,
              deltax := dx, rat := ratN }
        brentLoop f fuel st'

/-- Initial `brent` state (lines 491-500): `xb = R_MIN`, `fb = f(R_MIN)`,
`x = v = w = xb`, `fx = fv = fw = fb`, `(a, b) = (R_MIN, R_MAX)`,
`deltax = 0`, `rat = 0`. -/
def brentInit (fb : ℚ) : BrentState :=
  ⟨R_MIN, R_MIN, R_MIN, fb, fb, fb, R_MIN, R_MAX, 0, 0⟩

/-- Lines 579-588 of `brent`: `let xmin = x; let success = iter < maxiter &&
(R_MIN..=R_MAX).contains(&xmin); if success { Ok(xmin) } else
{ Err(FSRSError::OptimalNotFound) }` on the loop result `(xmin, iter <
maxiter)`. -/
def brentCheck (r : ℚ × Bool) : Except SimErr ℚ :=
  if r.2 = true ∧ R_MIN ≤ r.1 ∧ r.1 ≤ R_MAX then .ok r.1
  else .error .optimalNotFound

/-- `brent` (lines 478-588) over an abstract objective: evaluate at `R_MIN`
(the `?` of line 493 is the monadic bind), run the loop with `maxiter = 64`,
then apply the terminal success check. -/
def brent (f : ℚ → Except SimErr ℚ) : Except SimErr ℚ :=
  Except.bind (f R_MIN) fun fb =>
    Except.bind (brentLoop f 64 (brentInit fb)) brentCheck

/-- Modelled from the spec: `DEFAULT_PARAMETERS` is the crate's default
17-value parameter vector, defined outside the given sources; the spec fixes
only its length and role layout, so its values are immaterial here. -/
def DEFAULT_PARAMETERS : List ℚ := List.replicate 17 0

/-- `optimal_retention` (lines 445-475): empty `parameters` selects
`DEFAULT_PARAMETERS`, any other length than 17 is `InvalidParameters`,
otherwise `brent` runs on the objective built from the chosen vector
(`obj ps u` stands for `sample(config, ps, u, SAMPLE_SIZE, progress)`). -/
def optimal_retention (params : List ℚ)
    (obj : List ℚ → ℚ → Except SimErr ℚ) : Except SimErr ℚ :=
  if params.isEmpty then brent (obj DEFAULT_PARAMETERS)
  else if params.length ≠ 17 then .error .invalidParameters
  else brent (obj params)

/-! ### Concrete instances used by witnesses and counterexamples -/

/-- A concrete `FloatOps` instance (any instance works for the structural
claims; `powf ≡ 1` makes every retrievability `1`). -/
def opsX : FloatOps :=
  ⟨fun _ => 1, fun _ _ => 1, 19 / 81, -(1 / 2), 1 / 100, fun _ _ => 1⟩

/-- Concrete rng streams: uniform draws `0` (every due card is recalled
because retrievability `1 ≥ 0`), review ratings `3`, first ratings `3`. -/
def rngX : Rng := ⟨fun _ => 0, fun _ => 1, fun _ => 2⟩

/-- A concrete parameter vector for runs whose claims do not constrain it. -/
def wX : ℕ → ℚ := fun _ => 1

/-- Parameter vector for the C4 counterexample: `w4 = 1`, `w7 = 1`, rest `0`,
so the spec's mean reversion moves difficulty while the code's update does
not (`w6 = 0`). -/
def wX4 : ℕ → ℚ := fun i => if i = 4 ∨ i = 7 then 1 else 0

/-- Config of the C5 counterexample: cost cap `100`, every admitted card
costs `10`, no effective count limits. -/
def cfgX5 : SimulatorConfig :=
  ⟨18, 1, 100, 100, [10, 10, 10], 50, 10, [1, 1, 1, 1], [1, 1, 1], 1, 1000, 1000⟩

/-- Existing cards of the C5 counterexample: nine unlearned cards due on the
final day (`due = learn_span = 1`, admitted as learns) ahead of nine learned
cards due today (admitted as reviews). -/
def existingX5 : List Card :=
  List.replicate 9 ⟨1 / 10 ^ 10, 1 / 10 ^ 10, 0, 1⟩ ++
    List.replicate 9 ⟨5, 5, -5, 0⟩

/-- Day 0 of `simulate opsX cfgX5 wX (9/10) rngX existingX5`. -/
def ctxX5 : DayIn :=
  ⟨opsX, cfgX5, wX, 9 / 10, rngX, 0, 0, 0, initTable cfgX5 existingX5, 0⟩

/-! ### Helper lemmas -/

theorem clampQ_le_right {x lo hi : ℚ} (h : lo ≤ hi) : clampQ x lo hi ≤ hi :=
  max_le h (min_le_right x hi)

theorem le_clampQ_left (x lo hi : ℚ) : lo ≤ clampQ x lo hi := le_max_left lo _

theorem exc_bind_ok {α β : Type} (a : α) (g : α → Except SimErr β) :
    Except.bind (Except.ok a) g = g a := rfl

theorem exc_bind_error {α β : Type} (e : SimErr) (g : α → Except SimErr β) :
    Except.bind (Except.error e) g = (Except.error e : Except SimErr β) := rfl

/-- Review costs are non-negative when the configured forget and recall
costs are. -/
theorem cost1_nonneg (ctx : DayIn)
    (h1 : 0 ≤ ctx.cfg.forgetCost * ctx.cfg.lossAversion)
    (h2 : ctx.cfg.recallCosts.all (fun q => decide (0 ≤ q)) = true) :
    ∀ j, 0 ≤ ctx.cost1 j := by
  have h2' : ∀ q ∈ ctx.cfg.recallCosts, 0 ≤ q := by
    intro q hq
    exact of_decide_eq_true (List.all_eq_true.mp h2 q hq)
  intro j
  unfold DayIn.cost1
  split
  · split
    · exact h1
    · rcases hq : ctx.cfg.recallCosts.get? (ctx.ratings1 j - 2) with _ | q
      · simp [hq]
      · simpa [hq] using h2' q (List.get?_mem hq)
  · exact le_refl 0

/-- A card admitted for review on a day strictly inside the horizon is not a
`need_learn` card: its due date is at most `today`, while `need_learn`
requires due `= learn_span > today`. -/
theorem needLearn_false_of_trueReview (ctx : DayIn)
    (hspan : ctx.today < ctx.cfg.learnSpan) (i : ℕ)
    (hr : ctx.trueReview i = true) : ctx.needLearn i = false := by
  have hnr : ctx.needReview i = true := by
    unfold DayIn.trueReview at hr
    exact (Bool.and_eq_true_iff.mp (Bool.and_eq_true_iff.mp hr).1).1
  have hle : (ctx.cards i).due ≤ (ctx.today : ℚ) := of_decide_eq_true hnr
  have hlt : ((ctx.today : ℚ)) < (ctx.cfg.learnSpan : ℚ) := by
    exact_mod_cast hspan
  unfold DayIn.needLearn
  rw [decide_eq_false_iff_not]
  intro heq
  rw [heq] at hle
  exact absurd hlt (not_lt.mpr hle)

/-- On a day strictly inside the horizon no card is both an admitted review
and an admitted learn. -/
theorem trueLearn_false_of_trueReview (ctx : DayIn)
    (hspan : ctx.today < ctx.cfg.learnSpan) (i : ℕ)
    (hr : ctx.trueReview i = true) : ctx.trueLearn i = false := by
  unfold DayIn.trueLearn
  rw [needLearn_false_of_trueReview ctx hspan i hr, Bool.false_and,
    Bool.false_and]

/-! ### C6 -/

/-- C6: for every abstracted float kernel and parameter vector, whenever the
pre-failure stability is at least the floor `S_MIN` (as every stability in
the spec's card data model is), `stability_after_failure` returns a value
that is at least `S_MIN` and at most the pre-failure stability: forgetting
never increases stability. -/
theorem stability_after_failure_bounds (ops : FloatOps) (w : ℕ → ℚ)
    (s r d : ℚ) (h : ops.sMin ≤ s) :
    ops.sMin ≤ stability_after_failure ops w s r d ∧
      stability_after_failure ops w s r d ≤ s := by
  unfold stability_after_failure
  exact ⟨le_clampQ_left _ _ _, clampQ_le_right h⟩

unseal Rat.add Rat.mul Rat.sub Rat.inv in
theorem stability_after_failure_bounds_witness :
    opsX.sMin ≤ (5 : ℚ) ∧
      (opsX.sMin ≤ stability_after_failure opsX wX 5 (9 / 10) 5 ∧
        stability_after_failure opsX wX 5 (9 / 10) 5 ≤ 5) :=
  ⟨by decide, stability_after_failure_bounds opsX wX 5 (9 / 10) 5 (by decide)⟩

/-! ### C9 -/

/-- C9: `simulate` is deterministic.  All randomness enters through the
seeded generator, abstracted as the three draw streams of `Rng`; two runs
with the same streams (in the code: the same seed) and identical config,
parameters, desired retention and existing cards produce identical output
sequences. -/
theorem simulate_deterministic (ops : FloatOps) (cfg : SimulatorConfig)
    (w : ℕ → ℚ) (dr : ℚ) (existing : List Card) (rng₁ rng₂ : Rng)
    (h1 : rng₁.unif = rng₂.unif) (h2 : rng₁.rev = rng₂.rev)
    (h3 : rng₁.first = rng₂.first) :
    simulate ops cfg w dr rng₁ existing = simulate ops cfg w dr rng₂ existing := by
  obtain ⟨u₁, r₁, f₁⟩ := rng₁
  obtain ⟨u₂, r₂, f₂⟩ := rng₂
  cases h1
  cases h2
  cases h3
  rfl

theorem simulate_deterministic_witness :
    (rngX.unif = rngX.unif ∧ rngX.rev = rngX.rev ∧ rngX.first = rngX.first) ∧
      simulate opsX cfgX5 wX (9 / 10) rngX existingX5 =
        simulate opsX cfgX5 wX (9 / 10) rngX existingX5 :=
  ⟨⟨rfl, rfl, rfl⟩,
    simulate_deterministic opsX cfgX5 wX (9 / 10) existingX5 rngX rngX rfl rfl rfl⟩

/-! ### C10 -/

/-- C10: when `existing_cards` is longer than `deck_size`, the seeding loop
of `simulate` indexes past the card table and panics (modelled by `none`),
so callers must guarantee `existing_cards.len() <= deck_size`. -/
theorem simulate_existing_longer_than_deck_panics (ops : FloatOps)
    (cfg : SimulatorConfig) (w : ℕ → ℚ) (dr : ℚ) (rng : Rng)
    (existing : List Card) (h : cfg.deckSize < existing.length) :
    simulate ops cfg w dr rng existing = none := by
  unfold simulate
  rw [if_pos h]

/-- Config of the C2 counterexample (also reused as a small deck elsewhere):
one card, one day, zero learn/review limits. -/
def cfgX2 : SimulatorConfig :=
  ⟨1, 1, 100, 100, [10, 10, 10], 50, 20, [1, 1, 1, 1], [1, 1, 1], 1, 0, 0⟩

theorem simulate_existing_longer_than_deck_panics_witness :
    cfgX2.deckSize < existingX5.length ∧
      simulate opsX cfgX2 wX (9 / 10) rngX existingX5 = none :=
  ⟨by decide,
    simulate_existing_longer_than_deck_panics opsX cfgX2 wX (9 / 10) rngX
      existingX5 (by decide)⟩

/-! ### C8 -/

/-- C8: `optimal_retention` with an empty parameter vector runs `brent` on
the objective built from the default 17-value vector (no failure from the
empty length), and with a non-empty vector of any length other than 17 it
returns `InvalidParameters` irrespective of the objective, i.e. before any
simulation runs. -/
theorem optimal_retention_parameter_validation (params : List ℚ)
    (obj : List ℚ → ℚ → Except SimErr ℚ) :
    optimal_retention [] obj = brent (obj DEFAULT_PARAMETERS) ∧
      DEFAULT_PARAMETERS.length = 17 ∧
      (params ≠ [] → params.length ≠ 17 →
        optimal_retention params obj = .error .invalidParameters) := by
  refine ⟨rfl, rfl, fun hne hlen => ?_⟩
  unfold optimal_retention
  rw [if_neg (by simpa using hne), if_pos hlen]

theorem optimal_retention_parameter_validation_witness :
    (([(1 : ℚ)] ≠ []) ∧ [(1 : ℚ)].length ≠ 17) ∧
      optimal_retention [(1 : ℚ)] (fun _ _ => .ok 0) =
        .error .invalidParameters :=
  ⟨⟨by decide, by decide⟩,
    (optimal_retention_parameter_validation [(1 : ℚ)] (fun _ _ => .ok 0)).2.2
      (by decide) (by decide)⟩

/-! ### C3 -/

/-- Config for the C3 counterexample: empty deck but a positive horizon. -/
def cfgX0 : SimulatorConfig :=
  ⟨0, 1, 100, 100, [10, 10, 10], 50, 20, [1, 1, 1, 1], [1, 1, 1], 1, 5, 5⟩

unseal Rat.add Rat.mul Rat.sub Rat.inv in
/-- C3 counterexample: with `deck_size = 0` and `learn_span = 1` the day loop
runs and `cum_sum[0] = cost[0]` indexes an empty array, so `simulate`
panics (`none`) instead of degenerating gracefully as the claim states. -/
theorem empty_deck_simulate_panics :
    simulate opsX cfgX0 wX (9 / 10) rngX [] = none := by decide

/-- Config with a zero horizon for the C3 witness. -/
def cfgX3 : SimulatorConfig :=
  ⟨1, 0, 100, 100, [10, 10, 10], 50, 20, [1, 1, 1, 1], [1, 1, 1], 1, 5, 5⟩

/-- C3 (amended): with `learn_span = 0` the day loop is a no-op and all four
metric sequences are empty, for any deck size, provided the run reaches the
loop (existing cards fit in the deck and the rating-weight `unwrap`s
succeed); but `deck_size = 0` with `learn_span > 0` panics on the empty-array
`cum_sum` indexing instead of degenerating. -/
theorem zero_horizon_simulate_empty (ops : FloatOps) (cfg : SimulatorConfig)
    (w : ℕ → ℚ) (dr : ℚ) (rng : Rng) (existing : List Card)
    (h0 : cfg.learnSpan = 0) (h1 : existing.length ≤ cfg.deckSize)
    (h2 : validWeights cfg.firstRatingProb = true)
    (h3 : validWeights cfg.reviewRatingProb = true) :
    simulate ops cfg w dr rng existing = some ([], [], [], []) := by
  unfold simulate
  rw [if_neg (Nat.not_lt.mpr h1), h0]
  simp only [h2, h3, Bool.and_self, Bool.not_true, Bool.false_eq_true,
    if_false]
  rfl

unseal Rat.add Rat.mul Rat.sub Rat.inv in
theorem zero_horizon_simulate_empty_witness :
    (cfgX3.learnSpan = 0 ∧ ([] : List Card).length ≤ cfgX3.deckSize ∧
        validWeights cfgX3.firstRatingProb = true ∧
        validWeights cfgX3.reviewRatingProb = true) ∧
      simulate opsX cfgX3 wX (9 / 10) rngX [] = some ([], [], [], []) :=
  ⟨⟨rfl, by decide, by decide, by decide⟩,
    zero_horizon_simulate_empty opsX cfgX3 wX (9 / 10) rngX [] rfl (by decide)
      (by decide) (by decide)⟩

/-! ### C7 -/

/-- C7: `brent` (driving `optimal_retention`) succeeds exactly when its loop
broke at the convergence test before exhausting the 64-iteration budget and
the final point lies in `[R_MIN, R_MAX] = [0.75, 0.95]`; it then returns that
point, and when the completed loop violates the terminal condition it returns
the distinct `OptimalNotFound` failure rather than an out-of-range value. -/
theorem brent_success_iff_converged_in_range (f : ℚ → Except SimErr ℚ) :
    (∀ x, brent f = .ok x →
      R_MIN ≤ x ∧ x ≤ R_MAX ∧
        ∃ fb, f R_MIN = .ok fb ∧ brentLoop f 64 (brentInit fb) = .ok (x, true)) ∧
    (∀ fb xm conv, f R_MIN = .ok fb →
      brentLoop f 64 (brentInit fb) = .ok (xm, conv) →
      ¬(conv = true ∧ R_MIN ≤ xm ∧ xm ≤ R_MAX) →
      brent f = .error .optimalNotFound) := by
  constructor
  · intro x hx
    unfold brent at hx
    rcases hrm : f R_MIN with e | fb
    · rw [hrm, exc_bind_error] at hx
      exact absurd hx (by simp)
    · rw [hrm, exc_bind_ok] at hx
      rcases hlp : brentLoop f 64 (brentInit fb) with e | p
      · rw [hlp, exc_bind_error] at hx
        exact absurd hx (by simp)
      · obtain ⟨xm, conv⟩ := p
        rw [hlp, exc_bind_ok] at hx
        unfold brentCheck at hx
        split_ifs at hx with hc
        obtain ⟨hconv, hlo, hhi⟩ := hc
        have hconv2 : conv = true := hconv
        obtain rfl : xm = x := Except.ok.inj hx
        exact ⟨hlo, hhi, fb, rfl, by rw [hlp, hconv2]⟩
  · intro fb xm conv hrm hlp hnc
    unfold brent
    rw [hrm, exc_bind_ok, hlp, exc_bind_ok]
    unfold brentCheck
    rw [if_neg hnc]

/-- The minimizer `brent` finds for the constant objective `1`. -/
def brentX : ℚ := 145619689001365136079428635143 / 156250000000000000000000000000

set_option maxRecDepth 1000000 in
unseal Rat.add Rat.mul Rat.sub Rat.inv in
theorem brent_success_iff_converged_in_range_witness :
    brent (fun _ => .ok 1) = .ok brentX ∧
      (R_MIN ≤ brentX ∧ brentX ≤ R_MAX ∧
        ∃ fb, (fun _ : ℚ => (.ok 1 : Except SimErr ℚ)) R_MIN = .ok fb ∧
          brentLoop (fun _ => .ok 1) 64 (brentInit fb) = .ok (brentX, true)) :=
  ⟨by decide,
    (brent_success_iff_converged_in_range (fun _ => .ok 1)).1 brentX (by decide)⟩

/-! ### C2 -/

/-- The C2 counterexample observation: the card table after day 0 of
`simulate opsX cfgX2 wX 0.9 rngX []` (one never-admitted card), checked
against the claimed stability and difficulty ranges of card 0. -/
def c2Check : Option Bool :=
  (simulateTableAfter opsX cfgX2 wX (9 / 10) rngX [] 1).map
    (fun t => decide ((opsX.sMin ≤ (t 0).stability ∧ (t 0).stability ≤ 36500) ∧
      1 ≤ (t 0).difficulty ∧ (t 0).difficulty ≤ 10))

set_option maxRecDepth 1000000 in
unseal Rat.add Rat.mul Rat.sub Rat.inv in
/-- C2 counterexample: after the first simulated day, the unlearned and
never-admitted card 0 still has stability and difficulty `1e-10`, far outside
`[S_MIN, 36500]` and `[1, 10]` — the claimed invariant fails for cards that
are not admitted on a day (and `simulate` clamps no stability upper bound at
all). -/
theorem card_ranges_violated_after_day : c2Check = some false := by decide

/-- C2 (amended): the ranges hold exactly where the day update writes a
clamp: every card admitted on a simulated day has its difficulty clamped
into `[1, 10]` by that day's update (all three update paths clamp); cards
not admitted keep their previous values (in particular unlearned slots stay
at `1e-10`), and the stability range is not enforced by `simulate`. -/
theorem admitted_difficulty_in_range (ctx : DayIn) (i : ℕ)
    (h : ctx.admitted i = true) :
    1 ≤ ctx.newDifficulty i ∧ ctx.newDifficulty i ≤ 10 := by
  have h110 : (1 : ℚ) ≤ 10 := by norm_num
  unfold DayIn.newDifficulty
  by_cases hl : ctx.trueLearn i = true
  · rw [if_pos hl]
    exact ⟨le_clampQ_left _ _ _, clampQ_le_right h110⟩
  · rw [if_neg hl]
    have hr : ctx.trueReview i = true := by
      unfold DayIn.admitted at h
      rcases Bool.or_eq_true_iff.mp h with h' | h'
      · exact h'
      · exact absurd h' hl
    by_cases hf : ctx.forgetFlag i = true
    · rw [if_pos (by rw [hr, hf]; rfl)]
      exact ⟨le_clampQ_left _ _ _, clampQ_le_right h110⟩
    · rw [if_neg (by rw [hr, Bool.not_eq_true] at *; rw [hf]; simp),
        if_pos (by rw [hr, Bool.not_eq_true] at *; rw [hf]; rfl)]
      exact ⟨le_clampQ_left _ _ _, clampQ_le_right h110⟩

unseal Rat.add Rat.mul Rat.sub Rat.inv in
theorem admitted_difficulty_in_range_witness :
    ctxX5.admitted 0 = true ∧
      (1 ≤ ctxX5.newDifficulty 0 ∧ ctxX5.newDifficulty 0 ≤ 10) :=
  ⟨by decide, admitted_difficulty_in_range ctxX5 0 (by decide)⟩

/-! ### C4 -/

/-- `next_difficulty` as the spec words it (§4.1): `d - w6·(rating-3)`, then
mean-reverted toward `w4` by factor `w7`, then clamped to `[1,10]` (this is
what the training model in `model.rs` computes; stated here for comparison
with what `simulate` computes). -/
def next_difficulty_spec (w : ℕ → ℚ) (d : ℚ) (rating : ℕ) : ℚ :=
  clampQ (w 7 * (w 4 - (d - w 6 * ((rating : ℚ) - 3))) +
    (d - w 6 * ((rating : ℚ) - 3))) 1 10

/-- Config for the C4 counterexample: one card, one day, ample budget. -/
def cfgX4 : SimulatorConfig :=
  ⟨1, 1, 100, 100, [10, 10, 10], 50, 20, [1, 1, 1, 1], [1, 1, 1], 1, 1000, 1000⟩

/-- One learned card due on day 0. -/
def existingX4 : List Card := [⟨5, 5, -5, 0⟩]

/-- Day 0 of `simulate opsX cfgX4 wX4 (9/10) rngX existingX4`. -/
def ctxX4 : DayIn :=
  ⟨opsX, cfgX4, wX4, 9 / 10, rngX, 0, 0, 0, initTable cfgX4 existingX4, 0⟩

unseal Rat.add Rat.mul Rat.sub Rat.inv in
/-- C4 counterexample: on day 0 card 0 is admitted and recalled with
rating 3, yet its new difficulty (`5`, unchanged because `simulate` applies
no mean reversion) differs from the spec's `next_difficulty` (`w7 = 1`,
`w4 = 1` pull it to `1`). -/
theorem next_difficulty_spec_mismatch :
    ctxX4.trueReview 0 = true ∧ ctxX4.forgetFlag 0 = false ∧
      ctxX4.newDifficulty 0 ≠
        next_difficulty_spec ctxX4.w (ctxX4.cards 0).difficulty
          (ctxX4.ratings2 0) := by
  refine ⟨by decide, by decide, by decide⟩

/-- C4 (amended): for an admitted recalled card, `simulate` updates the
difficulty to `(d - w6·(rating-3)).clamp(1,10)` using the sampled rating —
with no mean-reversion step (unlike the spec's `next_difficulty`). -/
theorem recalled_difficulty_update (ctx : DayIn) (i : ℕ)
    (hspan : ctx.today < ctx.cfg.learnSpan)
    (hr : ctx.trueReview i = true) (hf : ctx.forgetFlag i = false) :
    ctx.newDifficulty i =
      clampQ (ctx.w 6 * (3 - (ctx.ratings2 i : ℚ)) + (ctx.cards i).difficulty)
        1 10 := by
  have hl : ctx.trueLearn i = false :=
    trueLearn_false_of_trueReview ctx hspan i hr
  unfold DayIn.newDifficulty
  rw [if_neg (by rw [hl]; exact Bool.false_ne_true),
    if_neg (by rw [hr, hf]; exact Bool.false_ne_true),
    if_pos (by rw [hr, hf]; rfl)]

unseal Rat.add Rat.mul Rat.sub Rat.inv in
theorem recalled_difficulty_update_witness :
    (ctxX5.today < ctxX5.cfg.learnSpan ∧ ctxX5.trueReview 9 = true ∧
        ctxX5.forgetFlag 9 = false) ∧
      ctxX5.newDifficulty 9 =
        clampQ (ctxX5.w 6 * (3 - (ctxX5.ratings2 9 : ℚ)) +
          (ctxX5.cards 9).difficulty) 1 10 :=
  ⟨⟨by decide, by decide, by decide⟩,
    recalled_difficulty_update ctxX5 9 (by decide) (by decide) (by decide)⟩

/-! ### C1 -/

/-- Number of cards among `j < i` admitted by the claim's rule (C1): a card
is admitted iff it is due, the running cost sum at its position is within the
day cap, and the count of *admitted* reviews including itself is within the
review limit.  (The code instead counts every walked due card; the theorem
below shows the two rules agree for non-negative costs.) -/
def specAdmitCount (need : ℕ → Bool) (cum : ℕ → ℚ) (cap : ℚ) (limit : ℕ) :
    ℕ → ℕ
  | 0 => 0
  | i + 1 =>
    specAdmitCount need cum cap limit i +
      (if need i && decide (cum i ≤ cap) &&
          decide (specAdmitCount need cum cap limit i + 1 ≤ limit)
        then 1 else 0)

/-- The claim's admission rule (C1), stated from the spec's words. -/
def specTrueReview (need : ℕ → Bool) (cum : ℕ → ℚ) (cap : ℚ) (limit : ℕ)
    (i : ℕ) : Bool :=
  need i && decide (cum i ≤ cap) &&
    decide (specAdmitCount need cum cap limit i + 1 ≤ limit)

theorem cumSum_mono (c : ℕ → ℚ) (hc : ∀ j, 0 ≤ c j) :
    ∀ {j k : ℕ}, j ≤ k → cumSum c j ≤ cumSum c k := by
  intro j k h
  induction k with
  | zero =>
    cases Nat.le_zero.mp h
    exact le_refl _
  | succ k ih =>
    by_cases hjk : j ≤ k
    · refine (ih hjk).trans ?_
      have := hc (k + 1)
      show cumSum c k ≤ cumSum c k + c (k + 1)
      linarith
    · have : j = k + 1 := by omega
      subst this
      exact le_refl _

theorem cnt_le_succ (p : ℕ → Bool) (i : ℕ) : cnt p i ≤ cnt p (i + 1) := by
  show cnt p i ≤ cnt p i + _
  exact Nat.le_add_right _ _

/-- The walked-count admission state and the admitted-count admission state
stay related: either no card has been refused yet and the counters agree, or
a count-refusal happened and both counters are at/above the limit, or a
cost-refusal happened and (by monotonicity of the running sum) every later
cost check fails too. -/
theorem spec_admission_inv (need : ℕ → Bool) (cum : ℕ → ℚ) (cap : ℚ)
    (limit : ℕ) (i : ℕ) :
    cnt need i = specAdmitCount need cum cap limit i ∨
      (limit < cnt need i ∧ limit ≤ specAdmitCount need cum cap limit i) ∨
      (∃ j, j < i ∧ cap < cum j) := by
  induction i with
  | zero => exact Or.inl rfl
  | succ i ih =>
    rcases ih with h1 | h2 | h3
    · by_cases hn : need i = true
      · by_cases hcap : cum i ≤ cap
        · by_cases hlim : cnt need i + 1 ≤ limit
          · left
            have hC : cnt need (i + 1) = cnt need i + 1 := by simp [cnt, hn]
            have hA : specAdmitCount need cum cap limit (i + 1) =
                specAdmitCount need cum cap limit i + 1 := by
              simp only [specAdmitCount]
              rw [hn, ← h1]
              simp [hcap, hlim]
            rw [hC, hA, h1]
          · right; left
            have hC : cnt need (i + 1) = cnt need i + 1 := by simp [cnt, hn]
            have hA : specAdmitCount need cum cap limit (i + 1) =
                specAdmitCount need cum cap limit i := by
              simp only [specAdmitCount]
              rw [hn, ← h1]
              simp [hlim]
            rw [hC, hA, ← h1]
            omega
        · right; right
          exact ⟨i, Nat.lt_succ_self i, not_le.mp hcap⟩
      · left
        have hn' : need i = false := by simpa using hn
        have hC : cnt need (i + 1) = cnt need i := by simp [cnt, hn']
        have hA : specAdmitCount need cum cap limit (i + 1) =
            specAdmitCount need cum cap limit i := by
          simp [specAdmitCount, hn']
        rw [hC, hA, h1]
    · obtain ⟨ha, hb⟩ := h2
      right; left
      have hA : specAdmitCount need cum cap limit (i + 1) =
          specAdmitCount need cum cap limit i := by
        have hfalse : ¬(specAdmitCount need cum cap limit i + 1 ≤ limit) := by
          omega
        simp [specAdmitCount, hfalse]
      have hC := cnt_le_succ need i
      rw [hA]
      exact ⟨by omega, hb⟩
    · obtain ⟨j, hj, hcap⟩ := h3
      exact Or.inr (Or.inr ⟨j, Nat.lt_trans hj (Nat.lt_succ_self i), hcap⟩)

/-- For non-negative per-card costs, the code's walked-count admission test
(`true_review`) coincides with the claim's admitted-count test at every
index. -/
theorem code_eq_spec_admission (need : ℕ → Bool) (c : ℕ → ℚ) (cap : ℚ)
    (limit : ℕ) (hc : ∀ j, 0 ≤ c j) (i : ℕ) :
    (need i && decide (cumSum c i ≤ cap) &&
        decide (cnt need (i + 1) ≤ limit)) =
      specTrueReview need (cumSum c) cap limit i := by
  rcases spec_admission_inv need (cumSum c) cap limit i with h1 | h2 | h3
  · by_cases hn : need i = true
    · have hC : cnt need (i + 1) = cnt need i + 1 := by simp [cnt, hn]
      unfold specTrueReview
      rw [hC, h1]
    · have hn' : need i = false := by simpa using hn
      unfold specTrueReview
      rw [hn']
      simp
  · obtain ⟨ha, hb⟩ := h2
    have e1 : decide (cnt need (i + 1) ≤ limit) = false := by
      have h := cnt_le_succ need i
      exact decide_eq_false (by omega)
    have e2 : decide (specAdmitCount need (cumSum c) cap limit i + 1 ≤ limit)
        = false := decide_eq_false (by omega)
    unfold specTrueReview
    rw [e1, e2]
  · obtain ⟨j, hj, hcap⟩ := h3
    have hle : cumSum c j ≤ cumSum c i := cumSum_mono c hc (Nat.le_of_lt hj)
    have e : decide (cumSum c i ≤ cap) = false :=
      decide_eq_false (not_le.mpr (lt_of_lt_of_le hcap hle))
    unfold specTrueReview
    rw [e]
    simp

/-- C1: in each day of `simulate`, provided the configured costs are
non-negative (`forget_cost·loss_aversion` and the recall costs), a due card
is admitted for review (`true_review`) exactly according to the claim's rule:
walked in index order, the running cost sum at its position stays within
`max_cost_perday` and the running count of admitted reviews stays within
`review_limit`, with earlier-indexed cards having strict priority. -/
theorem trueReview_iff_spec_admission (ctx : DayIn)
    (h1 : 0 ≤ ctx.cfg.forgetCost * ctx.cfg.lossAversion)
    (h2 : ctx.cfg.recallCosts.all (fun q => decide (0 ≤ q)) = true) (i : ℕ) :
    ctx.trueReview i =
      specTrueReview ctx.needReview (cumSum ctx.cost1) ctx.cfg.maxCostPerday
        ctx.cfg.reviewLimit i := by
  exact code_eq_spec_admission ctx.needReview ctx.cost1 _ _
    (cost1_nonneg ctx h1 h2) i

unseal Rat.add Rat.mul Rat.sub Rat.inv in
theorem trueReview_iff_spec_admission_witness :
    (0 ≤ ctxX5.cfg.forgetCost * ctxX5.cfg.lossAversion ∧
        ctxX5.cfg.recallCosts.all (fun q => decide (0 ≤ q)) = true) ∧
      ctxX5.trueReview 9 =
        specTrueReview ctxX5.needReview (cumSum ctxX5.cost1)
          ctxX5.cfg.maxCostPerday ctxX5.cfg.reviewLimit 9 :=
  ⟨⟨by decide, by decide⟩,
    trueReview_iff_spec_admission ctxX5 (by decide) (by decide) 9⟩

/-! ### C5 -/

theorem sum_range_succ_cumSum (c : ℕ → ℚ) :
    ∀ n, (∑ i ∈ Finset.range (n + 1), c i) = cumSum c n := by
  intro n
  induction n with
  | zero => simp [cumSum]
  | succ n ih =>
    rw [Finset.sum_range_succ, ih]
    rfl

/-- A cumulative-sum admission pass never lets the selected costs outrun the
cap: each admitted index has its running sum (which dominates the selected
sum so far, costs being non-negative) within the cap. -/
theorem maskedSum_le_cap (m : ℕ → Bool) (c : ℕ → ℚ) (cap : ℚ)
    (hc : ∀ j, 0 ≤ c j) (hcap : 0 ≤ cap)
    (hm : ∀ j, m j = true → cumSum c j ≤ cap) :
    ∀ n, (∑ i ∈ Finset.range n, if m i then c i else 0) ≤ cap := by
  intro n
  induction n with
  | zero => simpa using hcap
  | succ n ih =>
    rw [Finset.sum_range_succ]
    by_cases hmn : m n = true
    · have hsub : (∑ i ∈ Finset.range n, if m i then c i else 0) ≤
          ∑ i ∈ Finset.range n, c i := by
        apply Finset.sum_le_sum
        intro i _
        by_cases h : m i = true
        · rw [if_pos h]
        · rw [if_neg h]
          exact hc i
      have hcum : (∑ i ∈ Finset.range n, c i) + c n ≤ cap := by
        calc (∑ i ∈ Finset.range n, c i) + c n
            = ∑ i ∈ Finset.range (n + 1), c i := (Finset.sum_range_succ c n).symm
          _ = cumSum c n := sum_range_succ_cumSum c n
          _ ≤ cap := hm n hmn
      rw [if_pos hmn]
      linarith
    · rw [if_neg hmn]
      simpa using ih

/-- C5 (amended): on each day strictly inside the horizon, with non-negative
configured costs and a non-negative cap, each admission pass's total stays
within `max_cost_perday` separately, so the recorded daily cost is bounded by
`2 · max_cost_perday` — but, as the counterexample shows, it can exceed
`max_cost_perday` by far more than the cost of a single admitted card,
because review and learn admission run two separate cumulative-sum passes. -/
theorem dayCost_le_two_cap (ctx : DayIn)
    (hspan : ctx.today < ctx.cfg.learnSpan)
    (h1 : 0 ≤ ctx.cfg.forgetCost * ctx.cfg.lossAversion)
    (h2 : ctx.cfg.recallCosts.all (fun q => decide (0 ≤ q)) = true)
    (h3 : 0 ≤ ctx.cfg.learnCost)
    (hcap : 0 ≤ ctx.cfg.maxCostPerday) :
    ctx.dayCost ≤ 2 * ctx.cfg.maxCostPerday := by
  have hc1 : ∀ j, 0 ≤ ctx.cost1 j := cost1_nonneg ctx h1 h2
  have hc2 : ∀ j, 0 ≤ ctx.cost2 j := by
    intro j
    unfold DayIn.cost2
    split
    · exact h3
    · exact hc1 j
  have hsplit : ctx.dayCost =
      (∑ i ∈ Finset.range ctx.cfg.deckSize,
        if ctx.trueReview i then ctx.cost2 i else 0) +
      (∑ i ∈ Finset.range ctx.cfg.deckSize,
        if ctx.trueLearn i then ctx.cost2 i else 0) := by
    unfold DayIn.dayCost
    rw [← Finset.sum_add_distrib]
    apply Finset.sum_congr rfl
    intro i _
    unfold DayIn.admitted
    by_cases hr : ctx.trueReview i = true
    · rw [hr, trueLearn_false_of_trueReview ctx hspan i hr]
      simp
    · have hr' : ctx.trueReview i = false := by simpa using hr
      rw [hr']
      simp
  have hrev : (∑ i ∈ Finset.range ctx.cfg.deckSize,
      if ctx.trueReview i then ctx.cost2 i else 0) ≤ ctx.cfg.maxCostPerday := by
    have heq : ∀ i, (if ctx.trueReview i then ctx.cost2 i else 0) =
        (if ctx.trueReview i then ctx.cost1 i else 0) := by
      intro i
      by_cases hr : ctx.trueReview i = true
      · rw [if_pos hr, if_pos hr]
        unfold DayIn.cost2
        rw [if_neg (by
          rw [needLearn_false_of_trueReview ctx hspan i hr]
          exact Bool.false_ne_true)]
      · rw [if_neg hr, if_neg hr]
    rw [Finset.sum_congr rfl (fun i _ => heq i)]
    apply maskedSum_le_cap _ _ _ hc1 hcap
    intro j hj
    unfold DayIn.trueReview at hj
    exact of_decide_eq_true (Bool.and_eq_true_iff.mp (Bool.and_eq_true_iff.mp hj).1).2
  have hlearn : (∑ i ∈ Finset.range ctx.cfg.deckSize,
      if ctx.trueLearn i then ctx.cost2 i else 0) ≤ ctx.cfg.maxCostPerday := by
    apply maskedSum_le_cap _ _ _ hc2 hcap
    intro j hj
    unfold DayIn.trueLearn at hj
    exact of_decide_eq_true (Bool.and_eq_true_iff.mp (Bool.and_eq_true_iff.mp hj).1).2
  rw [hsplit]
  linarith

set_option maxRecDepth 1000000 in
unseal Rat.add Rat.mul Rat.sub Rat.inv in
/-- C5 counterexample: on day 0 of the `ctxX5` run the recorded daily cost is
`180` while `max_cost_perday = 100` and every admitted card costs `10`: the
day's cost exceeds the cap by eight single-card costs, because learn
admission re-runs the cumulative sum on top of the review costs. -/
theorem dayCost_exceeds_single_card_bound :
    ctxX5.dayCost = 180 ∧ ctxX5.cfg.maxCostPerday = 100 ∧
      ∀ i ∈ Finset.range ctxX5.cfg.deckSize, ctxX5.admitted i = true →
        ctxX5.cfg.maxCostPerday + ctxX5.cost2 i < ctxX5.dayCost :=
  ⟨by decide, by decide, by decide⟩

set_option maxRecDepth 1000000 in
unseal Rat.add Rat.mul Rat.sub Rat.inv in
theorem dayCost_le_two_cap_witness :
    (ctxX5.today < ctxX5.cfg.learnSpan ∧
        0 ≤ ctxX5.cfg.forgetCost * ctxX5.cfg.lossAversion ∧
        ctxX5.cfg.recallCosts.all (fun q => decide (0 ≤ q)) = true ∧
        0 ≤ ctxX5.cfg.learnCost ∧ 0 ≤ ctxX5.cfg.maxCostPerday) ∧
      ctxX5.dayCost ≤ 2 * ctxX5.cfg.maxCostPerday :=
  ⟨⟨by decide, by decide, by decide, by decide, by decide⟩,
    dayCost_le_two_cap ctxX5 (by decide) (by decide) (by decide) (by decide)
      (by decide)⟩

end FsrsSim
